import Mathlib

/-
Verification of the testkube execution orchestrator against its
natural-language specification.

The Go source embedded here:
  * src/internal/app/api/v1/executions.go — ExecuteTestsHandler (scheduling
    partition and result finalization), executeTest, notifyEvents,
    GetExecuteOptions, mergeParams, newExecutionFromExecutionOptions
  * src/unnamed/part_001 — TestExecution.CalculateDuration

Collaborators (storage, secret client, executor client, cron client,
webhook client) are modelled as oracles supplied in an environment record;
each oracle returns the value or error the external system would produce.
Go effects that matter to the claims (records inserted into storage,
executions marked started, results updated, notifications emitted, dispatch
calls made, the metric counter) are tracked explicitly in an outcome record.

Types and helper functions of this repository that are not under src/
(the workerpool package, the Execution result model helpers, the webhook
event type constants) are modelled from the spec and carry a doc comment
saying so.
-/

namespace Testkube

/-- Association-list model of a Go `map[string]string`. Go maps have unique
keys; the list order models insertion order. -/
abbrev GoMap := List (String × String)

/-- Go map read `m[k]`: the value of the first entry with the given key. -/
def mapFind (m : GoMap) (k : String) : Option String :=
  match m with
  | [] => none
  | (k2, v) :: rest => if k2 = k then some v else mapFind rest k

/-- Go map assignment `m[k] = v`: overwrite the entry holding key `k`, or add a
new entry when the key is absent. -/
def mapSet (m : GoMap) (k v : String) : GoMap :=
  match m with
  | [] => [(k, v)]
  | (k2, v2) :: rest => if k2 = k then (k, v) :: rest else (k2, v2) :: mapSet rest k v

/-- The `mergeParams` function of src/internal/app/api/v1/executions.go
(lines 466-476): start from `params` (replacing a nil map by an empty one) and
write every entry of `appendParams` into it, so request-level entries override
test-level entries. -/
def mergeParams (params : Option GoMap) (appendParams : GoMap) : GoMap :=
  let base := match params with
  | none => []
  | some p => p
  appendParams.foldl (fun m kv => mapSet m kv.1 kv.2) base

/-- Caller-visible contents of the first argument map after `mergeParams`
returns. Go maps are reference values: when `params` is non-nil, every
`params[k] = v` assignment in the loop writes through to the caller's map, so
the caller afterwards sees the merged contents; when `params` is nil the
function rebinds only its local variable to a fresh empty map and the caller's
nil map is untouched. -/
def mergeParamsCallerView (params : Option GoMap) (appendParams : GoMap) : Option GoMap :=
  match params with
  | none => none
  | some p => some (mergeParams (some p) appendParams)

/-- The duration model of `TestExecution.CalculateDuration`
(src/unnamed/part_001). Timestamps are modelled as Go `UnixNano` values
(integers); the Go zero time has a non-positive `UnixNano`, which is exactly
the condition the source tests for "unset". -/
structure TestExecution where
  startTime : Int
  endTime : Int
deriving DecidableEq

/-- The `CalculateDuration` method of src/unnamed/part_001 (lines 36-50):
zero when both timestamps are unset, otherwise the end timestamp (replaced by
the current time when unset) minus the start timestamp. `now` stands for the
value `time.Now()` would return. -/
def TestExecution.CalculateDuration (e : TestExecution) (now : Int) : Int :=
  let en := e.endTime
  let st := e.startTime
  if st ≤ 0 ∧ en ≤ 0 then 0
  else
    let en2 := if en ≤ 0 then now else en
    en2 - e.startTime

/-- Execution result status enum (spec section 3): Queued, Pending, Running,
Success, Error. -/
inductive ExecStatus
  | queued
  | pending
  | running
  | success
  | failed
deriving DecidableEq

/-- Modelled from the spec: the `ExecutionResult` model (status, human error
message, raw backend output); its Go file is not under src/. -/
structure ExecutionResult where
  status : ExecStatus
  errorMessage : String
  output : String
deriving DecidableEq

/-- Modelled from the spec: `ExecutionResult.IsFailed` holds iff the status is
Error or the error message is non-empty (spec section 3 invariant). -/
def ExecutionResult.IsFailed (r : ExecutionResult) : Bool :=
  decide (r.status = ExecStatus.failed) || decide (r.errorMessage ≠ "")

/-- Modelled from the spec: a pending `ExecutionResult`, the initial result of
a freshly created execution. -/
def NewPendingExecutionResult : ExecutionResult :=
  { status := ExecStatus.pending, errorMessage := "", output := "" }

/-- The `Execution` model (spec section 3): identity, owning test reference,
start timestamp, result, parameters and labels. Only the fields the embedded
code reads or writes are carried. -/
structure Execution where
  id : String
  name : String
  testName : String
  testNamespace : String
  testType : String
  content : String
  startTime : Int
  executionResult : ExecutionResult
  params : GoMap
  args : List String
  paramsFile : String
  labels : GoMap
deriving DecidableEq

/-- Modelled from the spec: `Execution.Err` records a terminal Error outcome
on the execution, carrying the given message (spec sections 4.3 and 7: any
condition that prevents completion yields a terminal Error execution). -/
def Execution.Err (e : Execution) (msg : String) : Execution :=
  { e with executionResult :=
      { status := ExecStatus.failed, errorMessage := msg,
        output := e.executionResult.output } }

/-- Modelled from the spec: `Execution.Errw` is `Err` with a wrapped message,
mirroring the Go format-and-wrap call. -/
def Execution.Errw (e : Execution) (msg wrapped : String) : Execution :=
  e.Err (msg ++ wrapped)

/-- Modelled from the spec: `Execution.Start` marks the execution Running and
records the transition timestamp (spec section 4.4: mark Running and persist
the transition timestamp). -/
def Execution.Start (e : Execution) (now : Int) : Execution :=
  { e with
    startTime := now
    executionResult := { e.executionResult with status := ExecStatus.running } }

/-- Modelled from the spec: `NewExecution` creates an execution with a fresh
id (spec section 3: id assigned at creation). The id is supplied by the
caller's environment. -/
def NewExecution (genId nspace testName name testType content : String)
    (result : ExecutionResult) (params : GoMap) (labels : GoMap) : Execution :=
  { id := genId, name := name, testName := testName, testNamespace := nspace,
    testType := testType, content := content, startTime := 0,
    executionResult := result, params := params, args := [], paramsFile := "",
    labels := labels }

/-- Test spec of the test custom resource (type, content, test-level params,
recurring schedule). -/
structure TestSpec where
  type_ : String
  content : String
  params : Option GoMap
  schedule : String
deriving DecidableEq

/-- A test custom resource as returned by the tests client. -/
structure TestCR where
  name : String
  labels : GoMap
  spec : TestSpec
deriving DecidableEq

/-- An executor custom resource as returned by the executors client. -/
structure ExecutorCR where
  name : String
  spec : String
deriving DecidableEq

/-- The API-model test passed to `executeTest` (`testkube.Test`). Only the
fields the embedded code reads are carried. -/
structure Test where
  name : String
  type_ : String
deriving DecidableEq

/-- Modelled from the spec: `MapTestCRToAPI` of the tests mapper package (not
under src/) projects a test custom resource onto the API test model. -/
def MapTestCRToAPI (cr : TestCR) : Test :=
  { name := cr.name, type_ := cr.spec.type_ }

/-- Modelled from the spec: `MapTestContentFromSpec` of the tests mapper
package (not under src/) carries the test content over unchanged. -/
def MapTestContentFromSpec (content : String) : String := content

/-- The execution request (`testkube.ExecutionRequest`): execution name,
namespace, request-level params, args, params file, sync flag. -/
structure ExecutionRequest where
  name : String
  nspace : String
  params : GoMap
  args : List String
  paramsFile : String
  sync : Bool
deriving DecidableEq

/-- The resolved `client.ExecuteOptions` built by `GetExecuteOptions`
(src/internal/app/api/v1/executions.go, lines 438-464) and completed by
`executeTest` (the `ID` and `HasSecrets` fields). -/
structure ExecuteOptions where
  id : String
  testName : String
  nspace : String
  testSpec : TestSpec
  executorName : String
  executorSpec : String
  request : ExecutionRequest
  sync : Bool
  hasSecrets : Bool
  labels : GoMap
deriving DecidableEq

/-- Oracles for the custom-resource clients consumed by `GetExecuteOptions`:
the tests client and the executors client, each either returning the resource
or failing with an error message. -/
structure OptionsEnv where
  testsGet : String → Except String TestCR
  executorsGetByType : String → Except String ExecutorCR

/-- The `GetExecuteOptions` method of src/internal/app/api/v1/executions.go
(lines 438-464): fetch the test custom resource, merge the test-level params
under the request-level params, fetch the executor for the test type, and
assemble the execute options. -/
def GetExecuteOptions (env : OptionsEnv) (nspace id : String)
    (request : ExecutionRequest) : Except String ExecuteOptions :=
  match env.testsGet id with
  | Except.error e => Except.error ("cannot get test custom resource " ++ e)
  | Except.ok testCR =>
    let request := { request with params := mergeParams testCR.spec.params request.params }
    match env.executorsGetByType testCR.spec.type_ with
    | Except.error e => Except.error ("cannot get executor spec: " ++ e)
    | Except.ok executorCR =>
      Except.ok
        { id := ""
          testName := id
          nspace := nspace
          testSpec := testCR.spec
          executorName := executorCR.name
          executorSpec := executorCR.spec
          request := request
          sync := request.sync
          hasSecrets := false
          labels := testCR.labels }

/-- The `newExecutionFromExecutionOptions` function of
src/internal/app/api/v1/executions.go (lines 478-494): build a pending
execution from the resolved options, then copy args and params file from the
request. `genId` is the id the id generator would assign. -/
def newExecutionFromExecutionOptions (genId : String) (options : ExecuteOptions) : Execution :=
  let execution := NewExecution genId options.nspace options.testName
    options.request.name options.testSpec.type_
    (MapTestContentFromSpec options.testSpec.content)
    NewPendingExecutionResult options.request.params options.labels
  { execution with args := options.request.args, paramsFile := options.request.paramsFile }

/-- Outcome of the secret client probe in `executeTest`: the secret exists,
the lookup failed with a not-found error, or it failed with any other error. -/
inductive SecretLookup
  | found
  | notFound
  | failure (msg : String)
deriving DecidableEq

/-- A registered webhook as returned by the webhooks client. -/
structure Webhook where
  uri : String
deriving DecidableEq

/-- One emitted lifecycle notification: either a webhook event sent to the
events emitter, or the fixed chat (slack) notification. -/
inductive Notification
  | webhook (uri : String) (eventType : String) (execution : Execution)
  | slack (eventType : String) (execution : Execution)
deriving DecidableEq

/-- Modelled from the spec: the webhook event type constant for test started
events (the constants live outside src/). -/
def startTestEventType : String := "start-test"

/-- Modelled from the spec: the webhook event type constant for test ended
events (the constants live outside src/). -/
def endTestEventType : String := "end-test"

/-- Oracle for the webhooks client consumed by `notifyEvents`: the list of
webhooks registered for an event type, or a lookup error. -/
structure NotifyEnv where
  getByEvent : String → Except String (List Webhook)

/-- The `notifyEvents` method of src/internal/app/api/v1/executions.go
(lines 242-260): look up the webhooks registered for the event type (returning
the lookup error without notifying anything when it fails), emit one webhook
event per registered webhook through the fire-and-forget events emitter, then
notify the slack sink. The second component lists the notifications emitted. -/
def notifyEvents (env : NotifyEnv) (eventType : String) (execution : Execution) :
    Option String × List Notification :=
  match env.getByEvent eventType with
  | Except.error e => (some e, [])
  | Except.ok webhookList =>
    (none,
      webhookList.map (fun wh => Notification.webhook wh.uri eventType execution)
        ++ [Notification.slack eventType execution])

/-- Rendering of a Go error value interpolated through a format verb: a nil
error renders as the literal text fmt prints for a nil argument to a wrap
verb, a non-nil error renders as its message. `executeTest` reassigns its
`err` variable to the `notifyEvents` outcome before wrapping it on three
failure paths, so this is the text that ends up inside those messages. -/
def goErrString : Option String → String
  | none => "%!w(<nil>)"
  | some e => e

/-- One call into the executor dispatch capability, as made by `executeTest`:
the sync flag it branched on, the execution and the options it passed. -/
structure DispatchCall where
  sync : Bool
  execution : Execution
  options : ExecuteOptions
deriving DecidableEq

/-- Environment of `executeTest`: the generated random name and id, the clock,
and one oracle per collaborator call the function makes (execution-results
store reads and writes, custom-resource clients, secret client, executor
dispatch). Each oracle returns what the external system would. -/
structure ExecEnv where
  randName : String
  genId : String
  now : Int
  getByNameAndTest : String → String → Execution
  optionsEnv : OptionsEnv
  insert : Execution → Option String
  startExecution : String → Int → Option String
  secretGet : String → SecretLookup
  executeSync : Execution → ExecuteOptions → ExecutionResult × Option String
  execute : Execution → ExecuteOptions → ExecutionResult × Option String
  updateResult : String → ExecutionResult → Option String
  notifyEnv : NotifyEnv

/-- Everything observable about one `executeTest` call: the returned execution
and Go error, the records inserted into storage, the executions marked
started, the results updated, the executor dispatch calls made, the
notifications emitted, and how often the execution metric was incremented. -/
structure ExecOutcome where
  execution : Execution
  goErr : Option String
  inserted : List Execution
  started : List (String × Int)
  updatedResults : List (String × ExecutionResult)
  dispatched : List DispatchCall
  notifications : List Notification
  metricsCount : Nat
deriving DecidableEq

/-- Tail of `executeTest` after the secret probe
(src/internal/app/api/v1/executions.go, lines 202-239): dispatch sync or async
per the options, persist the returned result (an update failure yields an
Error execution before the metric is counted), set the result on the
execution, count the metric, and turn a dispatch error into a terminal Error
execution; every path emits a test-ended notification and returns a nil Go
error. On the dispatch-error path the source reassigns its `err` variable to
the `notifyEvents` outcome before calling `Errw`, so the wrapped text is the
notification outcome, not the dispatch error. -/
def executeTestDispatch (env : ExecEnv) (pendingExecution execution : Execution)
    (options : ExecuteOptions) (startNotifications : List Notification) : ExecOutcome :=
  let dispatch := if options.sync then env.executeSync execution options
    else env.execute execution options
  let result := dispatch.1
  let call : DispatchCall := { sync := options.sync, execution := execution, options := options }
  match env.updateResult execution.id result with
  | some uerr =>
    let notifyEnd := notifyEvents env.notifyEnv endTestEventType execution
    { execution := execution.Errw "update execution error: " uerr
      goErr := none
      inserted := [pendingExecution]
      started := [(execution.id, execution.startTime)]
      updatedResults := []
      dispatched := [call]
      notifications := startNotifications ++ notifyEnd.2
      metricsCount := 0 }
  | none =>
    let execution2 := { execution with executionResult := result }
    match dispatch.2 with
    | some _ =>
      let notifyEnd := notifyEvents env.notifyEnv endTestEventType execution2
      { execution := execution2.Errw "test execution failed: " (goErrString notifyEnd.1)
        goErr := none
        inserted := [pendingExecution]
        started := [(execution.id, execution.startTime)]
        updatedResults := [(execution.id, result)]
        dispatched := [call]
        notifications := startNotifications ++ notifyEnd.2
        metricsCount := 1 }
    | none =>
      let notifyEnd := notifyEvents env.notifyEnv endTestEventType execution2
      { execution := execution2
        goErr := none
        inserted := [pendingExecution]
        started := [(execution.id, execution.startTime)]
        updatedResults := [(execution.id, result)]
        dispatched := [call]
        notifications := startNotifications ++ notifyEnd.2
        metricsCount := 1 }

/-- The `executeTest` method of src/internal/app/api/v1/executions.go
(lines 144-240): assign a generated name when none is given; reject a
duplicate (test, name) pair as an immediate Error execution before any state
is written; resolve the execute options; insert the pending execution; mark
it Running, notify test-started, persist the start; probe the secret client
(not-found means no secrets, any other failure is an Error execution for this
job); then dispatch and finish via `executeTestDispatch`. Every return path
carries a nil Go error. On the start-persist-failure and secret-failure paths
the source reassigns its `err` variable to the `notifyEvents` outcome before
calling `Errw`, so the wrapped text is the notification outcome, not the
original collaborator error. -/
def executeTest (env : ExecEnv) (test : Test) (request : ExecutionRequest) : ExecOutcome :=
  let execName := if request.name = "" then env.randName else request.name
  let request := { request with name := execName }
  let stored := env.getByNameAndTest execName test.name
  if stored.name = execName then
    { execution := stored.Err ("test execution with name " ++ execName ++ " already exists")
      goErr := none
      inserted := []
      started := []
      updatedResults := []
      dispatched := []
      notifications := []
      metricsCount := 0 }
  else
    match GetExecuteOptions env.optionsEnv request.nspace test.name request with
    | Except.error e =>
      { execution := stored.Errw "cannot create valid execution options: " e
        goErr := none
        inserted := []
        started := []
        updatedResults := []
        dispatched := []
        notifications := []
        metricsCount := 0 }
    | Except.ok options0 =>
      let pendingExecution := newExecutionFromExecutionOptions env.genId options0
      let options1 := { options0 with id := pendingExecution.id }
      match env.insert pendingExecution with
      | some e =>
        { execution := pendingExecution.Errw
            "cannot create new test execution, cannot insert into storage: " e
          goErr := none
          inserted := []
          started := []
          updatedResults := []
          dispatched := []
          notifications := []
          metricsCount := 0 }
      | none =>
        let execution := pendingExecution.Start env.now
        let notifyStart := notifyEvents env.notifyEnv startTestEventType execution
        match env.startExecution execution.id execution.startTime with
        | some _ =>
          let notifyEnd := notifyEvents env.notifyEnv endTestEventType execution
          { execution := execution.Errw "cannot execute test, cannot insert into storage error: "
              (goErrString notifyEnd.1)
            goErr := none
            inserted := [pendingExecution]
            started := []
            updatedResults := []
            dispatched := []
            notifications := notifyStart.2 ++ notifyEnd.2
            metricsCount := 0 }
        | none =>
          match env.secretGet execution.testName with
          | SecretLookup.failure _ =>
            let notifyEnd := notifyEvents env.notifyEnv endTestEventType execution
            { execution := execution.Errw "cannot get secrets: " (goErrString notifyEnd.1)
              goErr := none
              inserted := [pendingExecution]
              started := [(execution.id, execution.startTime)]
              updatedResults := []
              dispatched := []
              notifications := notifyStart.2 ++ notifyEnd.2
              metricsCount := 0 }
          | SecretLookup.found =>
            executeTestDispatch env pendingExecution execution
              { options1 with hasSecrets := true } notifyStart.2
          | SecretLookup.notFound =>
            executeTestDispatch env pendingExecution execution
              { options1 with hasSecrets := false } notifyStart.2

/-- The pair `(execution, error)` as handed to the worker pool by
`executeTest`: the returned execution and the Go error return. -/
def executeTestPair (env : ExecEnv) (test : Test) (request : ExecutionRequest) :
    Execution × Option String :=
  ((executeTest env test request).execution, (executeTest env test request).goErr)

/-- Modelled from the spec: a worker pool request (pkg/workerpool is not under
src/): the subject object, its options, and the work function returning a
result and an optional error (spec section 3, WorkPoolJob). -/
structure WPRequest (In Opt Out : Type) where
  object : In
  options : Opt
  execFn : In → Opt → Out × Option String

/-- Modelled from the spec: running one worker pool job wraps the work
function's `(result, error)` pair into one response that carries either the
result or the error (spec sections 4.1 and 8: each response carries a result
or an error, never both and never neither). -/
def runWPJob {In Opt Out : Type} (r : WPRequest In Opt Out) : Except String Out :=
  match r.execFn r.object r.options with
  | (out, none) => Except.ok out
  | (_, some e) => Except.error e

/-- Modelled from the spec: the full response stream of the worker pool for a
batch of jobs (pkg/workerpool is not under src/). `sched` is the completion
order, an arbitrary permutation of the job positions (spec section 4.1: one
response per submitted job, no particular completion order). -/
def wpResponses {In Opt Out : Type} (jobs : List (WPRequest In Opt Out))
    (sched : List Nat) : List (Except String Out) :=
  sched.filterMap (fun k => (jobs.get? k).map runWPJob)

/-- The `prepareTestRequests` method of src/internal/app/api/v1/executions.go
(lines 131-142): one worker pool request per test, with the API-mapped test as
object, the shared execution request as options, and `executeTest` as work
function. -/
def prepareTestRequests (env : ExecEnv) (work : List TestCR)
    (request : ExecutionRequest) : List (WPRequest Test ExecutionRequest Execution) :=
  work.map (fun w =>
    { object := MapTestCRToAPI w
      options := request
      execFn := fun t r => executeTestPair env t r })

/-- Cron job options assembled by the scheduling branch of
`ExecuteTestsHandler` (src/internal/app/api/v1/executions.go, lines 85-90). -/
structure CronJobOptions where
  schedule : String
  resource : String
  data : String
  labels : GoMap
deriving DecidableEq

/-- The test resource uri constant of src/internal/app/api/v1/executions.go. -/
def testResourceURI : String := "tests"

/-- Modelled from the spec: `cronjob.GetMetadataName` (not under src/) derives
the cron job metadata name from the test name and the resource uri. -/
def cronGetMetadataName (name resource : String) : String :=
  name ++ "-" ++ resource

/-- Oracles for the scheduling branch of `ExecuteTestsHandler`: the cron job
client apply call and the JSON serialization of the request. -/
structure CronEnv where
  cronApply : String → String → CronJobOptions → Option String
  marshalRequest : ExecutionRequest → Except String String

/-- The queued execution reported for a test deferred to its recurring
schedule (src/internal/app/api/v1/executions.go, lines 95-100). -/
def queuedExecution (nspace : String) (test : TestCR) : Execution :=
  { id := "", name := "", testName := test.name, testNamespace := nspace,
    testType := test.spec.type_, content := "", startTime := 0,
    executionResult := { status := ExecStatus.queued, errorMessage := "", output := "" },
    params := [], args := [], paramsFile := "", labels := [] }

/-- Result of the scheduling partition loop of `ExecuteTestsHandler`: the
queued results reported immediately, the tests handed to the worker pool, and
the cron registrations applied. -/
structure ScheduleOutcome where
  results : List Execution
  work : List TestCR
  cronApplied : List (String × CronJobOptions)
deriving DecidableEq

/-- The scheduling partition loop of `ExecuteTestsHandler`
(src/internal/app/api/v1/executions.go, lines 72-101): a test with no
recurring schedule, or any test when the immediate-run callback query is
present, joins the worker-pool batch; otherwise the request is serialized, a
cron job is applied for the test, and a Queued execution is reported. A
serialization or apply failure aborts the handler with a transport error. -/
def scheduleTests (env : CronEnv) (tests : List TestCR) (callback : String)
    (request : ExecutionRequest) : Except String ScheduleOutcome :=
  match tests with
  | [] => Except.ok { results := [], work := [], cronApplied := [] }
  | test :: rest =>
    if test.spec.schedule = "" ∨ callback ≠ "" then
      match scheduleTests env rest callback request with
      | Except.error e => Except.error e
      | Except.ok o => Except.ok { o with work := test :: o.work }
    else
      match env.marshalRequest request with
      | Except.error e => Except.error ("cannot prepare test request: " ++ e)
      | Except.ok data =>
        let options : CronJobOptions :=
          { schedule := test.spec.schedule, resource := testResourceURI,
            data := data, labels := test.labels }
        match env.cronApply test.name (cronGetMetadataName test.name testResourceURI) options with
        | some e => Except.error ("cannot create scheduled test: " ++ e)
        | none =>
          match scheduleTests env rest callback request with
          | Except.error e2 => Except.error e2
          | Except.ok o =>
            Except.ok
              { o with
                results := queuedExecution request.nspace test :: o.results
                cronApplied := (test.name, options) :: o.cronApplied }

/-- The response `ExecuteTestsHandler` sends after draining the worker pool:
a request-level error, a single execution, or the full batch. -/
inductive HandlerResponse
  | failureResponse (msg : String)
  | single (execution : Execution)
  | batch (results : List Execution)
deriving DecidableEq

/-- The result finalization of `ExecuteTestsHandler`
(src/internal/app/api/v1/executions.go, lines 119-127): when the request
targeted one test by id and at least one result exists, return the first
result alone, turned into a request-level error exactly when it is failed;
otherwise return the whole batch. -/
def finalizeResults (id : String) (results : List Execution) : HandlerResponse :=
  if id ≠ "" ∧ results.length ≠ 0 then
    match results with
    | [] => HandlerResponse.batch results
    | r :: _ =>
      if r.executionResult.IsFailed then
        HandlerResponse.failureResponse r.executionResult.errorMessage
      else HandlerResponse.single r
  else HandlerResponse.batch results

/-- The effect part of an `executeTest` outcome: the Go error, the storage
writes, the dispatch calls and the metric count — everything except the
returned execution and the notifications themselves. The returned execution
is excluded deliberately: through Go error shadowing its error message embeds
the notification outcome on three failure paths. -/
def ExecOutcome.effects (o : ExecOutcome) :
    Option String × List Execution × List (String × Int) ×
      List (String × ExecutionResult) × List DispatchCall × Nat :=
  (o.goErr, o.inserted, o.started, o.updatedResults, o.dispatched, o.metricsCount)

/-- Sample execution used to instantiate the handler-level theorems. -/
def sampleExecution : Execution :=
  { id := "id1", name := "e1", testName := "t1", testNamespace := "ns",
    testType := "tt", content := "", startTime := 0,
    executionResult := { status := ExecStatus.pending, errorMessage := "", output := "" },
    params := [], args := [], paramsFile := "", labels := [] }

/-- Sample cron environment where every collaborator call succeeds. -/
def sampleCronEnv : CronEnv :=
  { cronApply := fun _ _ _ => none
    marshalRequest := fun _ => Except.ok "reqData" }

/-- Sample execution request used to instantiate the orchestration theorems. -/
def sampleRequest : ExecutionRequest :=
  { name := "e1", nspace := "ns", params := [("k", "v")], args := [],
    paramsFile := "", sync := true }

/-- Sample test custom resource without a recurring schedule. -/
def sampleTestNow : TestCR :=
  { name := "t-now"
    labels := []
    spec := { type_ := "curl", content := "c1", params := some [("a", "1")], schedule := "" } }

/-- Sample test custom resource with a recurring schedule. -/
def sampleTestLater : TestCR :=
  { name := "t-later"
    labels := []
    spec := { type_ := "postman", content := "c2", params := none, schedule := "5 4 1 1 1" } }

/-- The concrete schedule outcome produced by `scheduleTests` on the sample
inputs: the scheduled test is queued and registered, the other goes to the
worker pool. -/
def sampleScheduleOutcome : ScheduleOutcome :=
  { results := [queuedExecution "ns" sampleTestLater]
    work := [sampleTestNow]
    cronApplied := [("t-later",
      { schedule := "5 4 1 1 1", resource := testResourceURI,
        data := "reqData", labels := [] })] }

/-- Sample API-model test used to instantiate the `executeTest` theorems. -/
def sampleTest : Test :=
  { name := "t1", type_ := "curl" }

/-- Sample successful executor result. -/
def sampleExecutorResult : ExecutionResult :=
  { status := ExecStatus.success, errorMessage := "", output := "out" }

/-- Sample `executeTest` environment in which every collaborator call
succeeds: the stored-name probe misses, the custom resources resolve, storage
accepts all writes, the secret exists, dispatch succeeds, and one webhook is
registered. -/
def sampleExecEnv : ExecEnv :=
  { randName := "rand1"
    genId := "id-1"
    now := 7
    getByNameAndTest := fun _ _ => { sampleExecution with name := "other" }
    optionsEnv :=
      { testsGet := fun id => Except.ok
          { name := id
            labels := [("l", "1")]
            spec := { type_ := "curl", content := "c1", params := some [("a", "1")],
                      schedule := "" } }
        executorsGetByType := fun _ => Except.ok { name := "curl-executor", spec := "espec" } }
    insert := fun _ => none
    startExecution := fun _ _ => none
    secretGet := fun _ => SecretLookup.found
    executeSync := fun _ _ => (sampleExecutorResult, none)
    execute := fun _ _ => (sampleExecutorResult, none)
    updateResult := fun _ _ => none
    notifyEnv := { getByEvent := fun _ => Except.ok [{ uri := "http://wh" }] } }

/-- Sample `executeTest` environment whose stored-name probe reports an
existing execution carrying exactly the requested name, producing the
duplicate-name conflict. -/
def dupExecEnv : ExecEnv :=
  { sampleExecEnv with
    getByNameAndTest := fun n t => { sampleExecution with name := n, testName := t } }

/-- Sample worker-pool jobs over Nat payloads: the first job succeeds, the
second fails. -/
def wpSampleJobs : List (WPRequest Nat Nat Nat) :=
  [{ object := 1, options := 0, execFn := fun a _ => (a + 1, none) },
   { object := 2, options := 0, execFn := fun _ _ => (0, some "boom") }]

/-- The execute options `GetExecuteOptions` resolves in the sample
environment for test "t1" and the sample request named "e1". -/
def sampleOpts : ExecuteOptions :=
  { id := ""
    testName := "t1"
    nspace := "ns"
    testSpec := { type_ := "curl", content := "c1", params := some [("a", "1")],
                  schedule := "" }
    executorName := "curl-executor"
    executorSpec := "espec"
    request := { name := "e1", nspace := "ns", params := [("a", "1"), ("k", "v")],
                 args := [], paramsFile := "", sync := true }
    sync := true
    hasSecrets := false
    labels := [("l", "1")] }

/-- The pending execution `executeTest` builds from the sample options. -/
def samplePending : Execution :=
  newExecutionFromExecutionOptions "id-1" sampleOpts

/-- The sample pending execution after the Running transition at time 7. -/
def sampleStarted : Execution :=
  samplePending.Start 7

theorem mapFind_mapSet (m : GoMap) (k v k2 : String) :
    mapFind (mapSet m k v) k2 = if k = k2 then some v else mapFind m k2 := by
  induction m with
  | nil =>
    by_cases h : k = k2 <;> simp [mapSet, mapFind, h]
  | cons hd tl ih =>
    obtain ⟨k0, v0⟩ := hd
    by_cases h0 : k0 = k
    · subst h0
      by_cases h : k0 = k2 <;> simp [mapSet, mapFind, h]
    · by_cases h : k0 = k2
      · subst h
        have hk : ¬ k = k0 := fun he => h0 he.symm
        simp [mapSet, mapFind, h0, hk, ih]
      · simp [mapSet, mapFind, h0, h, ih]

theorem mapFind_eq_none_of_not_mem (m : GoMap) (k : String)
    (h : k ∉ m.map Prod.fst) : mapFind m k = none := by
  induction m with
  | nil => rfl
  | cons hd tl ih =>
    obtain ⟨k0, v0⟩ := hd
    simp only [List.map_cons, List.mem_cons] at h
    push_neg at h
    have hne : k0 ≠ k := fun he => h.1 he.symm
    simp [mapFind, hne, ih h.2]

theorem mergeParams_foldl_find (a : GoMap) (b : GoMap) (k : String)
    (ha : (a.map Prod.fst).Nodup) :
    mapFind (a.foldl (fun m kv => mapSet m kv.1 kv.2) b) k =
      match mapFind a k with
      | some v => some v
      | none => mapFind b k := by
  induction a generalizing b with
  | nil => simp [mapFind]
  | cons hd tl ih =>
    obtain ⟨k0, v0⟩ := hd
    simp only [List.map_cons, List.nodup_cons] at ha
    rw [List.foldl_cons, ih _ ha.2]
    by_cases h : k0 = k
    · subst h
      have hnone : mapFind tl k0 = none := by
        apply mapFind_eq_none_of_not_mem
        exact ha.1
      simp [mapFind, hnone, mapFind_mapSet]
    · simp [mapFind, h, mapFind_mapSet]

/-- C6: the merged parameter map used for an execution contains exactly the
union of the test-level and request-level key sets; a key present in both
resolves to the request-level value, a key present in only one keeps its
value. Stated as a per-key lookup equation on `mergeParams`; the hypothesis
records that a Go map has unique keys. -/
theorem mergeParams_request_wins (params : Option GoMap) (appendParams : GoMap)
    (ha : (appendParams.map Prod.fst).Nodup) (k : String) :
    mapFind (mergeParams params appendParams) k =
      match mapFind appendParams k with
      | some v => some v
      | none => mapFind (params.getD []) k := by
  cases params with
  | none => simpa [mergeParams] using mergeParams_foldl_find appendParams [] k ha
  | some p => simpa [mergeParams] using mergeParams_foldl_find appendParams p k ha

/-- C6 witness: on concrete maps, the request-level value wins for the shared
key "a". -/
theorem mergeParams_request_wins_witness :
    (([("a", "2"), ("c", "3")] : GoMap).map Prod.fst).Nodup ∧
    mapFind (mergeParams (some [("a", "1"), ("b", "5")]) [("a", "2"), ("c", "3")]) "a" =
      some "2" :=
  ⟨by decide, mergeParams_request_wins (some [("a", "1"), ("b", "5")])
    [("a", "2"), ("c", "3")] (by decide) "a"⟩

/-- C7 counterexample: `mergeParams` is not a pure function on its first
argument. With test-level params a = 1 and request-level params a = 2, the
caller's test-level map holds a = 2 after the call, because the Go map is a
reference value mutated in place by the merge loop. -/
theorem mergeParams_mutation_counterexample :
    mergeParamsCallerView (some [("a", "1")]) [("a", "2")] ≠ some [("a", "1")] := by
  decide

/-- C7 (amended): `mergeParams` returns the merged mapping with request-level
entries overriding test-level entries, but it mutates the caller's test-level
map in place whenever that map is non-nil: afterwards the caller's map holds
exactly the merged contents. Only a nil test-level map is left untouched (a
fresh map is allocated locally). The request-level map is never written to. -/
theorem mergeParamsCallerView_spec (params : Option GoMap) (appendParams : GoMap)
    (ha : (appendParams.map Prod.fst).Nodup) :
    (params = none → mergeParamsCallerView params appendParams = none) ∧
    (∀ p, params = some p →
      mergeParamsCallerView params appendParams = some (mergeParams params appendParams) ∧
      ∀ k, mapFind ((mergeParamsCallerView params appendParams).getD []) k =
        match mapFind appendParams k with
        | some v => some v
        | none => mapFind p k) := by
  constructor
  · intro h
    subst h
    rfl
  · intro p hp
    subst hp
    refine ⟨rfl, ?_⟩
    intro k
    simpa [mergeParamsCallerView, mergeParams] using
      mergeParams_foldl_find appendParams p k ha

/-- C7 amended witness: with a non-nil test-level map a = 1 and request map
b = 2, after the call the caller's map holds the merged contents. -/
theorem mergeParamsCallerView_spec_witness :
    (([("b", "2")] : GoMap).map Prod.fst).Nodup ∧
    ((some [("a", "1")] : Option GoMap) = none →
      mergeParamsCallerView (some [("a", "1")]) [("b", "2")] = none) ∧
    (∀ p, (some [("a", "1")] : Option GoMap) = some p →
      mergeParamsCallerView (some [("a", "1")]) [("b", "2")] =
        some (mergeParams (some [("a", "1")]) [("b", "2")]) ∧
      ∀ k, mapFind ((mergeParamsCallerView (some [("a", "1")]) [("b", "2")]).getD []) k =
        match mapFind [("b", "2")] k with
        | some v => some v
        | none => mapFind p k) :=
  ⟨by decide, mergeParamsCallerView_spec (some [("a", "1")]) [("b", "2")] (by decide)⟩

/-- C3: `CalculateDuration` returns zero when both timestamps are unset,
`now - start` when only the end is unset, and `end - start` otherwise; for
valid inputs (start not after end whenever the end is set, and neither
timestamp after now) the result is never negative. -/
theorem CalculateDuration_spec (e : TestExecution) (now : Int) :
    (e.startTime ≤ 0 → e.endTime ≤ 0 → e.CalculateDuration now = 0) ∧
    (0 < e.startTime → e.endTime ≤ 0 → e.CalculateDuration now = now - e.startTime) ∧
    (0 < e.endTime → e.CalculateDuration now = e.endTime - e.startTime) ∧
    ((0 < e.endTime → e.startTime ≤ e.endTime) → e.startTime ≤ now → e.endTime ≤ now →
      0 ≤ e.CalculateDuration now) := by
  simp only [TestExecution.CalculateDuration]
  refine ⟨?_, ?_, ?_, ?_⟩
  · intro hs he
    rw [if_pos ⟨hs, he⟩]
  · intro hs he
    rw [if_neg (by omega), if_pos he]
  · intro he
    rw [if_neg (by omega), if_neg (by omega)]
  · intro hvalid hsn hen
    split_ifs with h1 h2
    · omega
    · omega
    · have := hvalid (by omega)
      omega

/-- C3 witness: a completed execution with start 5 and end 9 has duration 4,
which is non-negative. -/
theorem CalculateDuration_spec_witness :
    ((TestExecution.mk 5 9).startTime ≤ 0 → (TestExecution.mk 5 9).endTime ≤ 0 →
      (TestExecution.mk 5 9).CalculateDuration 10 = 0) ∧
    (0 < (TestExecution.mk 5 9).startTime → (TestExecution.mk 5 9).endTime ≤ 0 →
      (TestExecution.mk 5 9).CalculateDuration 10 = 10 - (TestExecution.mk 5 9).startTime) ∧
    (0 < (TestExecution.mk 5 9).endTime →
      (TestExecution.mk 5 9).CalculateDuration 10 =
        (TestExecution.mk 5 9).endTime - (TestExecution.mk 5 9).startTime) ∧
    ((0 < (TestExecution.mk 5 9).endTime →
        (TestExecution.mk 5 9).startTime ≤ (TestExecution.mk 5 9).endTime) →
      (TestExecution.mk 5 9).startTime ≤ 10 → (TestExecution.mk 5 9).endTime ≤ 10 →
      0 ≤ (TestExecution.mk 5 9).CalculateDuration 10) :=
  CalculateDuration_spec (TestExecution.mk 5 9) 10

/-- C5: when the request targeted exactly one test by id and at least one
result was produced, the handler returns the single result alone, and turns it
into a request-level error exactly when that result is failed (status Error or
error message non-empty); when no id is given it returns the full batch. -/
theorem finalizeResults_spec (id : String) (results : List Execution) :
    (id = "" → finalizeResults id results = HandlerResponse.batch results) ∧
    (results = [] → finalizeResults id results = HandlerResponse.batch results) ∧
    (∀ r rs, id ≠ "" → results = r :: rs →
      (r.executionResult.IsFailed = true →
        finalizeResults id results =
          HandlerResponse.failureResponse r.executionResult.errorMessage) ∧
      (r.executionResult.IsFailed = false →
        finalizeResults id results = HandlerResponse.single r)) := by
  refine ⟨?_, ?_, ?_⟩
  · intro h
    subst h
    simp [finalizeResults]
  · intro h
    subst h
    simp [finalizeResults]
  · intro r rs hid hres
    subst hres
    constructor
    · intro hf
      simp [finalizeResults, hid, hf]
    · intro hf
      simp [finalizeResults, hid, hf]

/-- C5 witness: for the single-target request "t1" with one produced result,
the theorem instantiates and the failed branch is available concretely. -/
theorem finalizeResults_spec_witness :
    (("t1" : String) = "" →
      finalizeResults "t1" [sampleExecution] = HandlerResponse.batch [sampleExecution]) ∧
    (([sampleExecution] : List Execution) = [] →
      finalizeResults "t1" [sampleExecution] = HandlerResponse.batch [sampleExecution]) ∧
    (∀ r rs, ("t1" : String) ≠ "" → ([sampleExecution] : List Execution) = r :: rs →
      (r.executionResult.IsFailed = true →
        finalizeResults "t1" [sampleExecution] =
          HandlerResponse.failureResponse r.executionResult.errorMessage) ∧
      (r.executionResult.IsFailed = false →
        finalizeResults "t1" [sampleExecution] = HandlerResponse.single r)) :=
  finalizeResults_spec "t1" [sampleExecution]

/-- C4: the scheduling partition of the batch handler. Every test with a
recurring schedule and no immediate-run callback override is registered with
the cron scheduler and reported as a Queued execution, and is not part of the
worker-pool batch; every other test joins the worker-pool batch, which builds
one worker-pool job per such test. -/
theorem scheduleTests_partition (env : CronEnv) (eenv : ExecEnv) (tests : List TestCR)
    (callback : String) (request : ExecutionRequest) (o : ScheduleOutcome)
    (h : scheduleTests env tests callback request = Except.ok o) :
    o.work = tests.filter (fun t => decide (t.spec.schedule = "" ∨ callback ≠ "")) ∧
    o.results = (tests.filter (fun t => decide (t.spec.schedule ≠ "" ∧ callback = ""))).map
      (queuedExecution request.nspace) ∧
    o.cronApplied.map Prod.fst =
      (tests.filter (fun t => decide (t.spec.schedule ≠ "" ∧ callback = ""))).map TestCR.name ∧
    (∀ e2, e2 ∈ o.results → e2.executionResult.status = ExecStatus.queued) ∧
    (prepareTestRequests eenv o.work request).map (fun j => j.object) =
      o.work.map MapTestCRToAPI := by
  induction tests generalizing o with
  | nil =>
    simp only [scheduleTests] at h
    cases h
    simp [prepareTestRequests]
  | cons t rest ih =>
    simp only [scheduleTests] at h
    by_cases hc : t.spec.schedule = "" ∨ callback ≠ ""
    · rw [if_pos hc] at h
      cases hrec : scheduleTests env rest callback request with
      | error e =>
        rw [hrec] at h
        cases h
      | ok o2 =>
        rw [hrec] at h
        cases h
        obtain ⟨ih1, ih2, ih3, ih4, ih5⟩ := ih o2 hrec
        have hlater : ¬ (t.spec.schedule ≠ "" ∧ callback = "") := by tauto
        refine ⟨?_, ?_, ?_, ?_, ?_⟩
        · simp [List.filter_cons, hc, ih1]
        · simp [List.filter_cons, hlater, ih2]
        · simp [List.filter_cons, hlater, ih3]
        · exact ih4
        · simp [prepareTestRequests] at ih5 ⊢
    · rw [if_neg hc] at h
      push_neg at hc
      cases hm : env.marshalRequest request with
      | error e =>
        rw [hm] at h
        cases h
      | ok data =>
        simp only [hm] at h
        cases happly : env.cronApply t.name (cronGetMetadataName t.name testResourceURI)
          { schedule := t.spec.schedule, resource := testResourceURI,
            data := data, labels := t.labels } with
        | some e =>
          rw [happly] at h
          cases h
        | none =>
          rw [happly] at h
          cases hrec : scheduleTests env rest callback request with
          | error e2 =>
            rw [hrec] at h
            cases h
          | ok o2 =>
            rw [hrec] at h
            cases h
            obtain ⟨ih1, ih2, ih3, ih4, ih5⟩ := ih o2 hrec
            have hnow : ¬ (t.spec.schedule = "" ∨ callback ≠ "") := by tauto
            have hlater : t.spec.schedule ≠ "" ∧ callback = "" := hc
            refine ⟨?_, ?_, ?_, ?_, ?_⟩
            · simp [List.filter_cons, hnow, ih1]
            · simp [List.filter_cons, hlater, ih2]
            · simp [List.filter_cons, hlater, ih3]
            · intro e2 he2
              rcases List.mem_cons.mp he2 with he2 | he2
              · subst he2
                rfl
              · exact ih4 e2 he2
            · exact ih5

theorem wpResponses_range {In Opt Out : Type} (jobs : List (WPRequest In Opt Out)) :
    wpResponses jobs (List.range jobs.length) = jobs.map runWPJob := by
  unfold wpResponses
  induction jobs with
  | nil => rfl
  | cons j rest ih =>
    rw [List.length_cons, List.range_succ_eq_map, List.filterMap_cons]
    simp only [List.get?_cons_zero, Option.map_some]
    rw [List.filterMap_map]
    have hcomp : ((fun k => ((j :: rest).get? k).map runWPJob) ∘ Nat.succ) =
        fun k => (rest.get? k).map runWPJob := by
      funext k
      rfl
    rw [hcomp, ih, List.map_cons]
    rfl

/-- C2: for every batch of N jobs and every completion order (a permutation of
the job positions), the worker pool yields exactly N responses, one per job;
each response carries either a result or an error, never both and never
neither; and each job's response is a function of that job alone, so changing
or failing one job leaves every sibling response unchanged. -/
theorem wpResponses_spec {In Opt Out : Type} (jobs : List (WPRequest In Opt Out))
    (sched : List Nat) (h : sched.Perm (List.range jobs.length)) :
    (wpResponses jobs sched).length = jobs.length ∧
    (wpResponses jobs sched).Perm (jobs.map runWPJob) ∧
    (∀ resp, resp ∈ wpResponses jobs sched →
      ((∃ o, resp = Except.ok o) ∨ (∃ e2, resp = Except.error e2)) ∧
      ¬((∃ o, resp = Except.ok o) ∧ (∃ e2, resp = Except.error e2))) ∧
    (∀ (jobs2 : List (WPRequest In Opt Out)) (i : Nat),
      (∀ k, k ≠ i → jobs2.get? k = jobs.get? k) →
      ∀ k, k ≠ i → (jobs2.map runWPJob).get? k = (jobs.map runWPJob).get? k) := by
  have hperm : (wpResponses jobs sched).Perm (jobs.map runWPJob) := by
    have h2 : (wpResponses jobs sched).Perm (wpResponses jobs (List.range jobs.length)) := by
      unfold wpResponses
      exact h.filterMap _
    rw [wpResponses_range] at h2
    exact h2
  refine ⟨?_, hperm, ?_, ?_⟩
  · rw [hperm.length_eq, List.length_map]
  · intro resp _
    constructor
    · cases resp with
      | ok o => exact Or.inl ⟨o, rfl⟩
      | error e2 => exact Or.inr ⟨e2, rfl⟩
    · rintro ⟨⟨o, ho⟩, ⟨e2, he2⟩⟩
      rw [ho] at he2
      cases he2
  · intro jobs2 i hagree k hk
    rw [List.get?_map, List.get?_map, hagree k hk]

/-- C1: when the (possibly generated) execution name already names a stored
execution of the same test, `executeTest` returns that execution marked
terminal Error with the duplicate-name message and a nil Go error, and it
performs no storage insert, no start transition, no result update and no
dispatch — the execution never enters Pending or Running, and the conflict is
not a transport-level error. -/
theorem executeTest_duplicate_name (env : ExecEnv) (test : Test)
    (request : ExecutionRequest) (execName : String)
    (hname : execName = if request.name = "" then env.randName else request.name)
    (hdup : (env.getByNameAndTest execName test.name).name = execName) :
    (executeTest env test request).execution.executionResult.status = ExecStatus.failed ∧
    (executeTest env test request).execution.executionResult.errorMessage =
      "test execution with name " ++ execName ++ " already exists" ∧
    (executeTest env test request).goErr = none ∧
    (executeTest env test request).inserted = [] ∧
    (executeTest env test request).started = [] ∧
    (executeTest env test request).updatedResults = [] ∧
    (executeTest env test request).dispatched = [] := by
  subst hname
  simp only [executeTest]
  rw [if_pos hdup]
  simp [Execution.Err]

/-- C1 witness: with a stored execution echoing the requested name "e1" for
test "t1", the conflict outcome is concrete. -/
theorem executeTest_duplicate_name_witness :
    ("e1" = if sampleRequest.name = "" then dupExecEnv.randName else sampleRequest.name) ∧
    ((dupExecEnv.getByNameAndTest "e1" sampleTest.name).name = "e1") ∧
    ((executeTest dupExecEnv sampleTest sampleRequest).execution.executionResult.status =
        ExecStatus.failed ∧
      (executeTest dupExecEnv sampleTest sampleRequest).execution.executionResult.errorMessage =
        "test execution with name " ++ "e1" ++ " already exists" ∧
      (executeTest dupExecEnv sampleTest sampleRequest).goErr = none ∧
      (executeTest dupExecEnv sampleTest sampleRequest).inserted = [] ∧
      (executeTest dupExecEnv sampleTest sampleRequest).started = [] ∧
      (executeTest dupExecEnv sampleTest sampleRequest).updatedResults = [] ∧
      (executeTest dupExecEnv sampleTest sampleRequest).dispatched = []) :=
  ⟨by decide, by decide,
    executeTest_duplicate_name dupExecEnv sampleTest sampleRequest "e1" (by decide) (by decide)⟩

/-- C8: after the duplicate check, options resolution, insert and start
transition succeed, the secret probe decides the job's fate: a successful
lookup dispatches with HasSecrets true, a not-found lookup dispatches with
HasSecrets false, and any other lookup failure returns a terminal Error
execution with a nil Go error and no dispatch call at all. -/
theorem executeTest_secret_lookup (env : ExecEnv) (test : Test)
    (request : ExecutionRequest) (execName : String) (req2 : ExecutionRequest)
    (opts : ExecuteOptions) (pendingExec startedExec : Execution)
    (hname : execName = if request.name = "" then env.randName else request.name)
    (hreq2 : req2 = { request with name := execName })
    (hnodup : (env.getByNameAndTest execName test.name).name ≠ execName)
    (hopts : GetExecuteOptions env.optionsEnv request.nspace test.name req2 = Except.ok opts)
    (hpend : pendingExec = newExecutionFromExecutionOptions env.genId opts)
    (hins : env.insert pendingExec = none)
    (hstarted : startedExec = pendingExec.Start env.now)
    (hse : env.startExecution startedExec.id startedExec.startTime = none) :
    (env.secretGet startedExec.testName = SecretLookup.found →
      (executeTest env test request).dispatched =
        [{ sync := opts.sync, execution := startedExec,
           options := { opts with id := pendingExec.id, hasSecrets := true } }]) ∧
    (env.secretGet startedExec.testName = SecretLookup.notFound →
      (executeTest env test request).dispatched =
        [{ sync := opts.sync, execution := startedExec,
           options := { opts with id := pendingExec.id, hasSecrets := false } }]) ∧
    (∀ msg, env.secretGet startedExec.testName = SecretLookup.failure msg →
      (executeTest env test request).dispatched = [] ∧
      (executeTest env test request).execution.executionResult.status = ExecStatus.failed ∧
      (executeTest env test request).goErr = none) := by
  subst hname
  subst hreq2
  subst hpend
  subst hstarted
  simp only [executeTest]
  rw [if_neg hnodup]
  simp only [hopts, hins, hse]
  refine ⟨?_, ?_, ?_⟩
  · intro hsec
    simp only [hsec, executeTestDispatch]
    repeat' split
    all_goals rfl
  · intro hsec
    simp only [hsec, executeTestDispatch]
    repeat' split
    all_goals rfl
  · intro msg hsec
    simp only [hsec]
    simp [Execution.Errw, Execution.Err]

/-- C10: `executeTest` returns a nil Go error on every return path — every
failure is communicated purely through the returned execution's result — so
the worker-pool response for a test job is always an ok-response carrying the
execution, never a bare error. -/
theorem executeTest_no_transport_error (env : ExecEnv) (test : Test)
    (request : ExecutionRequest) :
    (executeTest env test request).goErr = none ∧
    runWPJob
      { object := test
        options := request
        execFn := fun t r => executeTestPair env t r } =
      Except.ok (executeTest env test request).execution := by
  have hg : (executeTest env test request).goErr = none := by
    simp only [executeTest, executeTestDispatch]
    repeat' split
    all_goals rfl
  refine ⟨hg, ?_⟩
  simp only [runWPJob, executeTestPair, hg]

theorem executeTestDispatch_notify_frame (env : ExecEnv) (nenv2 : NotifyEnv)
    (p e : Execution) (o : ExecuteOptions) (sn sn2 : List Notification) :
    (executeTestDispatch { env with notifyEnv := nenv2 } p e o sn2).effects =
      (executeTestDispatch env p e o sn).effects ∧
    (executeTestDispatch { env with notifyEnv := nenv2 } p e o sn2).execution.executionResult.status =
      (executeTestDispatch env p e o sn).execution.executionResult.status := by
  constructor <;>
    · simp only [executeTestDispatch, ExecOutcome.effects]
      repeat' split
      all_goals rfl

/-- C9 counterexample to the claim as stated: a failure of the webhook-list
lookup alone (no sink delivery failed) prevents delivery to the chat-notifier
sink: `notifyEvents` emits nothing at all, whereas the same event with a
successful (empty) lookup does reach the chat notifier. -/
theorem notifyEvents_lookup_failure_skips_chat :
    (notifyEvents { getByEvent := fun _ => Except.error "lookup failed" }
        endTestEventType sampleExecution).2 = [] ∧
    (notifyEvents { getByEvent := fun _ => Except.ok [] }
        endTestEventType sampleExecution).2 =
      [Notification.slack endTestEventType sampleExecution] :=
  ⟨rfl, rfl⟩

/-- C9 (amended): when the webhook-list lookup succeeds, the event fans out to
every registered webhook sink plus the fixed chat-notifier sink, and
per-sink delivery is fire-and-forget; a failing webhook-list lookup, however,
emits no notification at all, including to the chat notifier. Notification
outcomes never change `executeTest`'s Go error, its storage writes, its
dispatch calls, its metric count, or the returned execution's status — but
not the full returned execution: through Go error shadowing (`err` is
reassigned to the `notifyEvents` result before `Errw`), on the dispatch-error
path the returned execution's error message wraps the notification outcome
instead of the dispatch error, as the last conjunct exhibits. -/
theorem notifyEvents_fanout_and_isolation
    (nenv : NotifyEnv) (eventType : String) (execution : Execution)
    (env : ExecEnv) (nenv2 : NotifyEnv) (test : Test) (request : ExecutionRequest) :
    (∀ whs, nenv.getByEvent eventType = Except.ok whs →
      notifyEvents nenv eventType execution =
        (none, whs.map (fun wh => Notification.webhook wh.uri eventType execution)
          ++ [Notification.slack eventType execution])) ∧
    (∀ e2, nenv.getByEvent eventType = Except.error e2 →
      notifyEvents nenv eventType execution = (some e2, [])) ∧
    (executeTest { env with notifyEnv := nenv2 } test request).effects =
      (executeTest env test request).effects ∧
    (executeTest { env with notifyEnv := nenv2 } test request).execution.executionResult.status =
      (executeTest env test request).execution.executionResult.status ∧
    (∀ (p e3 : Execution) (o : ExecuteOptions) (sn : List Notification)
        (r : ExecutionResult) (derr : String),
      (if o.sync then env.executeSync e3 o else env.execute e3 o) = (r, some derr) →
      env.updateResult e3.id r = none →
      (executeTestDispatch env p e3 o sn).execution.executionResult.errorMessage =
        "test execution failed: " ++
          goErrString (notifyEvents env.notifyEnv endTestEventType
            { e3 with executionResult := r }).1) := by
  refine ⟨?_, ?_, ?_, ?_, ?_⟩
  · intro whs hw
    simp [notifyEvents, hw]
  · intro e2 hw
    simp [notifyEvents, hw]
  · simp only [executeTest, ExecOutcome.effects]
    repeat' split
    all_goals first
      | rfl
      | exact (executeTestDispatch_notify_frame env nenv2 _ _ _ _ _).1
  · simp only [executeTest]
    repeat' split
    all_goals first
      | rfl
      | exact (executeTestDispatch_notify_frame env nenv2 _ _ _ _ _).2
  · intro p e3 o sn r derr hdisp hupd
    simp only [executeTestDispatch, hdisp, hupd]
    simp [Execution.Errw, Execution.Err]

/-- C2 witness: two concrete jobs (one succeeding, one failing) run in the
completion order second-then-first. -/
theorem wpResponses_spec_witness :
    ([1, 0].Perm (List.range wpSampleJobs.length)) ∧
    ((wpResponses wpSampleJobs [1, 0]).length = wpSampleJobs.length ∧
      (wpResponses wpSampleJobs [1, 0]).Perm (wpSampleJobs.map runWPJob) ∧
      (∀ resp, resp ∈ wpResponses wpSampleJobs [1, 0] →
        ((∃ o, resp = Except.ok o) ∨ (∃ e2, resp = Except.error e2)) ∧
        ¬((∃ o, resp = Except.ok o) ∧ (∃ e2, resp = Except.error e2))) ∧
      (∀ (jobs2 : List (WPRequest Nat Nat Nat)) (i : Nat),
        (∀ k, k ≠ i → jobs2.get? k = wpSampleJobs.get? k) →
        ∀ k, k ≠ i → (jobs2.map runWPJob).get? k = (wpSampleJobs.map runWPJob).get? k)) :=
  ⟨by decide, wpResponses_spec wpSampleJobs [1, 0] (by decide)⟩

/-- C4 witness: a batch of one scheduled and one unscheduled test with no
callback override partitions into one Queued result with a cron registration
and one worker-pool test. -/
theorem scheduleTests_partition_witness :
    scheduleTests sampleCronEnv [sampleTestLater, sampleTestNow] "" sampleRequest =
      Except.ok sampleScheduleOutcome ∧
    (sampleScheduleOutcome.work =
        [sampleTestLater, sampleTestNow].filter
          (fun t => decide (t.spec.schedule = "" ∨ ("" : String) ≠ "")) ∧
      sampleScheduleOutcome.results =
        ([sampleTestLater, sampleTestNow].filter
          (fun t => decide (t.spec.schedule ≠ "" ∧ ("" : String) = ""))).map
          (queuedExecution sampleRequest.nspace) ∧
      sampleScheduleOutcome.cronApplied.map Prod.fst =
        ([sampleTestLater, sampleTestNow].filter
          (fun t => decide (t.spec.schedule ≠ "" ∧ ("" : String) = ""))).map TestCR.name ∧
      (∀ e2, e2 ∈ sampleScheduleOutcome.results →
        e2.executionResult.status = ExecStatus.queued) ∧
      (prepareTestRequests sampleExecEnv sampleScheduleOutcome.work sampleRequest).map
          (fun j => j.object) =
        sampleScheduleOutcome.work.map MapTestCRToAPI) :=
  ⟨rfl, scheduleTests_partition sampleCronEnv sampleExecEnv
    [sampleTestLater, sampleTestNow] "" sampleRequest sampleScheduleOutcome rfl⟩

/-- C8 witness: in the all-success sample environment the secret is found, so
the job dispatches exactly once with HasSecrets true. -/
theorem executeTest_secret_lookup_witness :
    ("e1" = if sampleRequest.name = "" then sampleExecEnv.randName else sampleRequest.name) ∧
    ((sampleExecEnv.getByNameAndTest "e1" sampleTest.name).name ≠ "e1") ∧
    (GetExecuteOptions sampleExecEnv.optionsEnv sampleRequest.nspace sampleTest.name
        { sampleRequest with name := "e1" } = Except.ok sampleOpts) ∧
    (sampleExecEnv.insert samplePending = none) ∧
    (sampleExecEnv.startExecution sampleStarted.id sampleStarted.startTime = none) ∧
    ((sampleExecEnv.secretGet sampleStarted.testName = SecretLookup.found →
      (executeTest sampleExecEnv sampleTest sampleRequest).dispatched =
        [{ sync := sampleOpts.sync, execution := sampleStarted,
           options := { sampleOpts with id := samplePending.id, hasSecrets := true } }]) ∧
     (sampleExecEnv.secretGet sampleStarted.testName = SecretLookup.notFound →
      (executeTest sampleExecEnv sampleTest sampleRequest).dispatched =
        [{ sync := sampleOpts.sync, execution := sampleStarted,
           options := { sampleOpts with id := samplePending.id, hasSecrets := false } }]) ∧
     (∀ msg, sampleExecEnv.secretGet sampleStarted.testName = SecretLookup.failure msg →
      (executeTest sampleExecEnv sampleTest sampleRequest).dispatched = [] ∧
      (executeTest sampleExecEnv sampleTest sampleRequest).execution.executionResult.status =
        ExecStatus.failed ∧
      (executeTest sampleExecEnv sampleTest sampleRequest).goErr = none)) :=
  ⟨by decide, by decide, rfl, rfl, rfl,
    executeTest_secret_lookup sampleExecEnv sampleTest sampleRequest "e1"
      { sampleRequest with name := "e1" } sampleOpts samplePending sampleStarted
      (by decide) rfl (by decide) rfl rfl rfl rfl rfl⟩

/-- C9 amended witness: in the sample environment the lookup returns one
webhook, so the fan-out is concrete, and replacing the notification
environment by an always-failing one leaves the outcome effects and the
returned status unchanged. -/
theorem notifyEvents_fanout_and_isolation_witness :
    (sampleExecEnv.notifyEnv.getByEvent endTestEventType =
      Except.ok [{ uri := "http://wh" }]) ∧
    ((∀ whs, sampleExecEnv.notifyEnv.getByEvent endTestEventType = Except.ok whs →
      notifyEvents sampleExecEnv.notifyEnv endTestEventType sampleExecution =
        (none, whs.map (fun wh => Notification.webhook wh.uri endTestEventType sampleExecution)
          ++ [Notification.slack endTestEventType sampleExecution])) ∧
     (∀ e2, sampleExecEnv.notifyEnv.getByEvent endTestEventType = Except.error e2 →
      notifyEvents sampleExecEnv.notifyEnv endTestEventType sampleExecution = (some e2, [])) ∧
     (executeTest
        { sampleExecEnv with
          notifyEnv := { getByEvent := fun _ => Except.error "lookup failed" } }
        sampleTest sampleRequest).effects =
       (executeTest sampleExecEnv sampleTest sampleRequest).effects ∧
     (executeTest
        { sampleExecEnv with
          notifyEnv := { getByEvent := fun _ => Except.error "lookup failed" } }
        sampleTest sampleRequest).execution.executionResult.status =
       (executeTest sampleExecEnv sampleTest sampleRequest).execution.executionResult.status ∧
     (∀ (p e3 : Execution) (o : ExecuteOptions) (sn : List Notification)
        (r : ExecutionResult) (derr : String),
      (if o.sync then sampleExecEnv.executeSync e3 o else sampleExecEnv.execute e3 o) =
        (r, some derr) →
      sampleExecEnv.updateResult e3.id r = none →
      (executeTestDispatch sampleExecEnv p e3 o sn).execution.executionResult.errorMessage =
        "test execution failed: " ++
          goErrString (notifyEvents sampleExecEnv.notifyEnv endTestEventType
            { e3 with executionResult := r }).1)) :=
  ⟨rfl,
    notifyEvents_fanout_and_isolation sampleExecEnv.notifyEnv endTestEventType
      sampleExecution sampleExecEnv
      { getByEvent := fun _ => Except.error "lookup failed" } sampleTest sampleRequest⟩

end Testkube
